import Mathlib

/-!
Shallow embedding of the `changelog` package (file `changelog/__init__.py`)
of the github-changelog repository.

Conventions of the embedding:
* Python strings are modelled as `List Char` (abbreviated `Str`).
* The module's anchored regular expressions (`MERGE_PR_RE`,
  `MERGE_RELEASE_PR_RE`, `SQUASH_PR_RE`, `CHANGELOG_RE`) are embedded as
  explicit matching functions.  All four patterns except `CHANGELOG_RE`
  start with `^` and are compiled without `re.MULTILINE`, so `re.search`
  and `re.match` coincide on them: a single matcher per pattern suffices.
  `.` never matches a newline, `[0-9]+` and `.*` are greedy, and for
  `SQUASH_PR_RE` the greedy leading group means the rightmost
  occurrence of the parenthesised number on the first line wins.
* Remote HTTP calls are modelled as oracle functions supplied to
  `fetch_changes`; `get_pr_for_commit` is additionally modelled on its
  own over an explicit response value.
* Python exceptions are modelled with `Option` / `Except`.
-/

set_option maxRecDepth 10000

namespace Changelog

/-- Python strings are modelled as lists of characters. -/
abbrev Str := List Char

/-- Source: `Commit = namedtuple("Commit", ["sha", "message"])`. -/
structure Commit where
  sha : Str
  message : Str
deriving DecidableEq

/-- Source: `PullRequest = namedtuple("PullRequest", ["number", "title"])`. -/
structure PullRequest where
  number : Str
  title : Str
deriving DecidableEq

/-- Source: `PullRequestDetails = namedtuple("PullRequestDetails", ["body", "labels"])`.
Both fields may be `None` in the source (tests pass `PullRequestDetails(None, None)`),
hence the `Option`s. -/
structure PullRequestDetails where
  body : Option Str
  labels : Option (List Str)
deriving DecidableEq

/-- Source: `ExtendedPullRequest = namedtuple("ExtendedPullRequest", ["pr", "details"])`. -/
structure ExtendedPullRequest where
  pr : PullRequest
  details : PullRequestDetails
deriving DecidableEq

/-- The only field of `GitHubConfig` that the formatting logic reads. -/
structure GitHubConfig where
  base_url : Str
deriving DecidableEq

/-- Matches the literal `p` at the front of `s` and returns the remainder
(regex literal matching). -/
def stripLit : Str → Str → Option Str
  | [], s => some s
  | _ :: _, [] => none
  | p :: ps, c :: cs => if p = c then stripLit ps cs else none

/-- The literal part of `MERGE_PR_RE` before the number group. -/
def mergeLit : Str := ("Merge pull request #").data

/-- The literal between the number group and the branch part of `MERGE_PR_RE`. -/
def fromLit : Str := (" from ").data

/-- Matching of `MERGE_PR_RE = re.compile(r"^Merge pull request #([0-9]+) from .*\n\n(.*)")`.
Returns `(group 1, group 2)`: the pull-request number and the title line.
`[0-9]+` greedily takes the maximal digit run (a shorter run would have to be
followed by the literal space of `" from "`, impossible on a digit), `.*` runs
to the end of the first line (it cannot cross a newline), the literal `\n\n`
must follow, and group 2 is the maximal newline-free run after it.
The tail step (the mandatory blank line and the captured title line) is split
out as `mergeTail`, shared with `mergeReleaseMatch`. -/
def mergeTail (ds r2 : Str) : Option (Str × Str) :=
  match r2.dropWhile (fun c => c != '\n') with
  | c1 :: c2 :: r3 =>
    if c1 = '\n' ∧ c2 = '\n' then some (ds, r3.takeWhile (fun c => c != '\n'))
    else none
  | _ => none

def mergeMatch (message : Str) : Option (Str × Str) :=
  (stripLit mergeLit message).bind fun r1 =>
    let ds := r1.takeWhile Char.isDigit
    if ds.isEmpty then none
    else
      (stripLit fromLit (r1.dropWhile Char.isDigit)).bind fun r2 =>
        mergeTail ds r2

/-- The path component required by `MERGE_RELEASE_PR_RE`. -/
def releaseLit : Str := ("/release/").data

/-- Does `s` contain `pat` as a contiguous substring (regex `.*pat.*`)? -/
def hasSub (pat : Str) : Str → Bool
  | [] => (stripLit pat []).isSome
  | c :: cs => (stripLit pat (c :: cs)).isSome || hasSub pat cs

/-- Matching of
`MERGE_RELEASE_PR_RE = re.compile(r"^Merge pull request #([0-9]+) from .*/release/.*\n\n(.*)")`:
like `mergeMatch` but the newline-free branch segment after `" from "` must
contain `/release/`. -/
def mergeReleaseMatch (message : Str) : Option (Str × Str) :=
  (stripLit mergeLit message).bind fun r1 =>
    let ds := r1.takeWhile Char.isDigit
    if ds.isEmpty then none
    else
      (stripLit fromLit (r1.dropWhile Char.isDigit)).bind fun r2 =>
        if hasSub releaseLit (r2.takeWhile (fun c => c != '\n')) then
          mergeTail ds r2
        else none

/-- Tries to match `" (#" [0-9]+ ")"` at the front of `s`
(the tail of `SQUASH_PR_RE` after the leading group), returning the digits. -/
def parenNum (s : Str) : Option Str :=
  (stripLit (" (#").data s).bind fun r =>
    let ds := r.takeWhile Char.isDigit
    if ds.isEmpty then none
    else
      match r.dropWhile Char.isDigit with
      | c :: _ => if c = ')' then some ds else none
      | [] => none

/-- Core of `SQUASH_PR_RE = re.compile(r"^(.*) \(#([0-9]+)\).*")` on the first
line of a message: the greedy leading `(.*)` makes the rightmost occurrence of
`" (#N)"` win, so scan from the right.  Returns `(group 1, group 2)` =
`(title, number)`; the trailing `.*` of the pattern imposes no condition. -/
def squashSplit : Str → Option (Str × Str)
  | [] => none
  | c :: cs =>
    match squashSplit cs with
    | some (t, n) => some (c :: t, n)
    | none =>
      match parenNum (c :: cs) with
      | some n => some ([], n)
      | none => none

/-- Matching of `SQUASH_PR_RE`: every atom of the pattern is newline-free,
so the whole match lives on the first line of the message. -/
def squashMatch (message : Str) : Option (Str × Str) :=
  squashSplit (message.takeWhile (fun c => c != '\n'))

/-- Source: `def is_pr(message)`: `MERGE_PR_RE.search(message) or SQUASH_PR_RE.search(message)`. -/
def is_pr (message : Str) : Bool :=
  (mergeMatch message).isSome || (squashMatch message).isSome

/-- Source: `def is_release_merge(message)`: `MERGE_RELEASE_PR_RE.search(message)`. -/
def is_release_merge (message : Str) : Bool :=
  (mergeReleaseMatch message).isSome

/-- Source: `def extract_pr(message)`: tries `MERGE_PR_RE.match` first, then
`SQUASH_PR_RE.match`; note the group order differs between the two patterns.
`none` models the final `raise Exception("Commit isn't a PR merge, ...")`. -/
def extract_pr (message : Str) : Option PullRequest :=
  match mergeMatch message with
  | some (number, title) => some (PullRequest.mk number title)
  | none =>
    match squashMatch message with
    | some (title, number) => some (PullRequest.mk number title)
    | none => none

/-- The set matched by Python's `\s` (relevant to `CHANGELOG_RE`). -/
def isPyWhitespace (c : Char) : Bool :=
  c = ' ' || c = '\t' || c = '\n' || c = '\r' || c = '\x0b' || c = '\x0c'

/-- Matching of `CHANGELOG_RE = re.compile(r"^CHANGELOG:\s?(.*)", re.MULTILINE)`
at one position: the literal, then optionally (greedily) one whitespace
character, then the captured maximal newline-free run. -/
def changelogAt (s : Str) : Option Str :=
  match stripLit ("CHANGELOG:").data s with
  | none => none
  | some r =>
    match r with
    | [] => some []
    | c :: r2 =>
      if isPyWhitespace c then some (r2.takeWhile (fun c => c != '\n'))
      else some (r.takeWhile (fun c => c != '\n'))

/-- Scan of `CHANGELOG_RE.search`: with `re.MULTILINE`, `^` matches at the
start of the text and right after every newline; the leftmost match wins.
`atStart` records whether the current position is a line start. -/
def changelogScan : Bool → Str → Option Str
  | _, [] => none
  | atStart, c :: cs =>
    if atStart then
      match changelogAt (c :: cs) with
      | some r => some r
      | none => changelogScan (c = '\n') cs
    else changelogScan (c = '\n') cs

/-- Source: `def extract_changelog(pr_body)`: `None` body gives `None`; a body
without a `CHANGELOG:` line makes `changelog_match.groups()` raise inside the
bare `except`, giving `None`; otherwise the first captured group is returned. -/
def extract_changelog (pr_body : Option Str) : Option Str :=
  match pr_body with
  | none => none
  | some b => changelogScan true b

/-- Source: `LABEL_LEVELS`, the fixed case-sensitive label-to-level dictionary. -/
def LABEL_LEVELS (label : Str) : Option Nat :=
  if label = ("patch").data then some 3
  else if label = ("hotfix").data then some 3
  else if label = ("fix").data then some 3
  else if label = ("minor").data then some 2
  else if label = ("feature").data then some 2
  else if label = ("breaking").data then some 1
  else if label = ("major").data then some 1
  else none

/-- Source: `LABEL_LEVELS.get(label) or 2` in `format_changes` (the table never
stores a falsy value, so `or 2` only fires on a missing key). -/
def labelLevel (label : Str) : Nat :=
  (LABEL_LEVELS label).getD 2

/-- Source: `CHANGELOG_LEVEL_MESSAGE`; the dictionary has exactly the keys
1, 2, 3 and `change_level` provably stays within them. -/
def CHANGELOG_LEVEL_MESSAGE (level : Nat) : Str :=
  if level = 1 then ("MAJOR RELEASE").data
  else if level = 2 then ("MINOR RELEASE").data
  else if level = 3 then ("PATCH RELEASE").data
  else []

/-- A raw element of the JSON list returned by the
`commits/{sha}/pulls` endpoint: `pr["number"]` is an integer,
`pr["title"]` a string. -/
structure RawPull where
  number : Nat
  title : Str
deriving DecidableEq

/-- The part of an HTTP response that `get_pr_for_commit` inspects. -/
structure PRForCommitResponse where
  status_code : Nat
  pulls : List RawPull
deriving DecidableEq

/-- Source: `def get_pr_for_commit(...)`: `None` on `status_code != 200`,
`None` on an empty result list, otherwise
`PullRequest(number=str(pr["number"]), title=pr["title"])` of the first result. -/
def get_pr_for_commit (response : PRForCommitResponse) : Option PullRequest :=
  if response.status_code ≠ 200 then none
  else
    match response.pulls with
    | [] => none
    | p :: _ => some (PullRequest.mk (Nat.repr p.number).data p.title)

/-- One iteration of the commit loop of `fetch_changes`: the value bound to
`pr` for a given commit (`none` both for the `continue` on an ignored release
merge and for a failed fallback lookup).  `lookup` is the oracle for
`get_pr_for_commit(github_config, owner, repo, commit.sha)`.  `extract_pr` is
only reached when `is_pr` holds, where it never fails
(theorem `extract_pr_isSome_iff`), so its `Option` is never the raising
`none` here. -/
def resolveCommit (lookup : Str → Option PullRequest) (ignore_release_merge : Bool)
    (commit : Commit) : Option PullRequest :=
  if is_pr commit.message then
    if ignore_release_merge && is_release_merge commit.message then none
    else extract_pr commit.message
  else lookup commit.sha

/-- The accumulation loop of `fetch_changes`: `prs` is built in walk order,
`seen` models the `processed_pr_numbers` set
(`if pr and pr.number not in processed_pr_numbers`). -/
def collectPRs (lookup : Str → Option PullRequest) (ignore_release_merge : Bool) :
    List Commit → List Str → List PullRequest
  | [], _ => []
  | commit :: rest, seen =>
    match resolveCommit lookup ignore_release_merge commit with
    | none => collectPRs lookup ignore_release_merge rest seen
    | some pr =>
      if pr.number ∈ seen then collectPRs lookup ignore_release_merge rest seen
      else pr :: collectPRs lookup ignore_release_merge rest (pr.number :: seen)

/-- The error raised by `fetch_changes` when commits exist but no
pull requests were resolved
(`raise Exception("Lots of commits and no PRs on branch ...")`). -/
inductive FetchError where
  | consistency
deriving DecidableEq

/-- Source: the pure core of `def fetch_changes(...)`, starting from the
commit list returned by `get_commits_between`.  `lookup` is the oracle for the
best-effort `get_pr_for_commit` fallback and `getDetails` the oracle for
`get_pr_details` (keyed on the pull-request number).  The walk builds `prs`
with deduplication, details are fetched for the survivors, the consistency
check fires when `extended_prs` is empty but the commit list is not, and the
list is reversed once at the very end (`extended_prs.reverse()`). -/
def fetch_changes (lookup : Str → Option PullRequest)
    (getDetails : Str → PullRequestDetails) (ignore_release_merge : Bool)
    (commits_between : List Commit) : Except FetchError (List ExtendedPullRequest) :=
  let prs := collectPRs lookup ignore_release_merge commits_between []
  let extended_prs := prs.map (fun pr => ExtendedPullRequest.mk pr (getDetails pr.number))
  if extended_prs.length = 0 ∧ commits_between.length > 0 then
    Except.error FetchError.consistency
  else Except.ok extended_prs.reverse

/-- The rendering of one pull request into a line of `format_changes`:
`"- {description} {number}"` where the description is the `CHANGELOG:`
override when present, else the title, and the number is a markdown link
when requested. -/
def entryLine (github_config : GitHubConfig) (owner repo : Str) (markdown : Bool)
    (extended_pr : ExtendedPullRequest) : Str :=
  let number0 := '#' :: extended_pr.pr.number
  let link := github_config.base_url ++ [ '/' ] ++ owner ++ [ '/' ] ++ repo ++
    ("/pull/").data ++ extended_pr.pr.number
  let number :=
    if markdown then '[' :: number0 ++ ("](").data ++ link ++ [ ')' ]
    else number0
  ("- ").data ++
    (match extract_changelog extended_pr.details.body with
     | some d => d
     | none => extended_pr.pr.title) ++ ' ' :: number

/-- One iteration of the `format_changes` loop on the severity accumulator
`change_level`: `min(change_level, 2)` when the label list is empty or `None`,
then `min` with `LABEL_LEVELS.get(label) or 2` for each label. -/
def change_level_update (extended_pr : ExtendedPullRequest) (change_level : Nat) : Nat :=
  let ls := extended_pr.details.labels.getD []
  let lvl1 := if ls.length = 0 then min change_level 2 else change_level
  ls.foldl (fun acc lab => min acc (labelLevel lab)) lvl1

/-- One iteration of the `format_changes` loop: updates `change_level` and
appends the rendered line. -/
def formatStep (github_config : GitHubConfig) (owner repo : Str) (markdown : Bool)
    (acc : Nat × List Str) (extended_pr : ExtendedPullRequest) : Nat × List Str :=
  (change_level_update extended_pr acc.1,
    acc.2 ++ [entryLine github_config owner repo markdown extended_pr])

/-- Source: `def format_changes(github_config, owner, repo, prs, markdown)`:
`change_level` starts at 3, one line per pull request is accumulated, and the
severity message is inserted at position 0. -/
def format_changes (github_config : GitHubConfig) (owner repo : Str)
    (prs : List ExtendedPullRequest) (markdown : Bool) : List Str :=
  let acc := prs.foldl (formatStep github_config owner repo markdown) (3, [])
  CHANGELOG_LEVEL_MESSAGE acc.1 :: acc.2

/-- Source: the tail of `def generate_changelog(...)` after the HTTP
configuration: fetch, format, and join with `"\n"`, or with the literal
two-character `"\\n"` when `single_line` is set. -/
def generate_changelog (github_config : GitHubConfig) (owner repo : Str)
    (lookup : Str → Option PullRequest) (getDetails : Str → PullRequestDetails)
    (markdown single_line ignore_release_merge : Bool)
    (commits_between : List Commit) : Except FetchError Str :=
  match fetch_changes lookup getDetails ignore_release_merge commits_between with
  | Except.error e => Except.error e
  | Except.ok prs =>
    Except.ok (List.intercalate
      (if single_line then ("\\n").data else [ '\n' ])
      (format_changes github_config owner repo prs markdown))

/-! Helper lemmas about the matching primitives. -/

theorem stripLit_self_append (p r : Str) : stripLit p (p ++ r) = some r := by
  induction p with
  | nil => rfl
  | cons c cs ih => simp [stripLit, ih]

theorem stripLit_eq_some {p s r : Str} (h : stripLit p s = some r) : s = p ++ r := by
  induction p generalizing s with
  | nil => simpa [stripLit] using h
  | cons c cs ih =>
    cases s with
    | nil => simp [stripLit] at h
    | cons d ds =>
      by_cases hc : c = d
      · subst hc
        simp only [stripLit, if_pos rfl] at h
        simpa using ih h
      · simp [stripLit, hc] at h

theorem takeWhile_append_all {p : Char → Bool} {xs : Str} (ys : Str)
    (h : ∀ c ∈ xs, p c = true) :
    List.takeWhile p (xs ++ ys) = xs ++ List.takeWhile p ys := by
  induction xs with
  | nil => simp
  | cons c cs ih =>
    have hc : p c = true := h c (by simp)
    simp only [List.cons_append, List.takeWhile_cons, hc, if_pos]
    rw [ih (fun d hd => h d (by simp [hd]))]

theorem dropWhile_append_all {p : Char → Bool} {xs : Str} (ys : Str)
    (h : ∀ c ∈ xs, p c = true) :
    List.dropWhile p (xs ++ ys) = List.dropWhile p ys := by
  induction xs with
  | nil => simp
  | cons c cs ih =>
    have hc : p c = true := h c (by simp)
    simp only [List.cons_append, List.dropWhile_cons, hc, if_pos]
    exact ih (fun d hd => h d (by simp [hd]))

theorem takeWhile_eq_nil_of_head {p : Char → Bool} {c : Char} {cs : Str}
    (h : p c = false) : List.takeWhile p (c :: cs) = [] := by
  simp [List.takeWhile_cons, h]

theorem dropWhile_eq_self_of_head {p : Char → Bool} {c : Char} {cs : Str}
    (h : p c = false) : List.dropWhile p (c :: cs) = c :: cs := by
  simp [List.dropWhile_cons, h]

/-- Evaluation of `mergeMatch` on any message of the merge-commit template
shape: literal head, a nonempty digit run, `" from "`, a newline-free branch
segment, the mandatory blank line, a newline-free title line, and a tail that
is empty or starts a further line. -/
theorem mergeMatch_template {message ds rest t tail : Str}
    (hmsg : message = mergeLit ++ ds ++ fromLit ++ rest ++ '\n' :: '\n' :: (t ++ tail))
    (hds : ds ≠ []) (hdig : ∀ c ∈ ds, c.isDigit = true)
    (hrest : ∀ c ∈ rest, (c != '\n') = true)
    (ht : ∀ c ∈ t, (c != '\n') = true)
    (htail : tail = [] ∨ ∃ tl, tail = '\n' :: tl) :
    mergeMatch message = some (ds, t) := by
  subst hmsg
  have h1 : stripLit mergeLit
      (mergeLit ++ (ds ++ fromLit ++ rest ++ '\n' :: '\n' :: (t ++ tail))) =
      some (ds ++ fromLit ++ rest ++ '\n' :: '\n' :: (t ++ tail)) :=
    stripLit_self_append _ _
  have htake : List.takeWhile Char.isDigit
      (ds ++ (fromLit ++ rest ++ '\n' :: '\n' :: (t ++ tail))) = ds := by
    rw [takeWhile_append_all _ hdig]
    have : List.takeWhile Char.isDigit (fromLit ++ rest ++ '\n' :: '\n' :: (t ++ tail)) = [] :=
      takeWhile_eq_nil_of_head (by decide)
    rw [this, List.append_nil]
  have hdrop : List.dropWhile Char.isDigit
      (ds ++ (fromLit ++ rest ++ '\n' :: '\n' :: (t ++ tail))) =
      fromLit ++ rest ++ '\n' :: '\n' :: (t ++ tail) := by
    rw [dropWhile_append_all _ hdig]
    exact dropWhile_eq_self_of_head (by decide)
  have h2 : stripLit fromLit (fromLit ++ (rest ++ '\n' :: '\n' :: (t ++ tail))) =
      some (rest ++ '\n' :: '\n' :: (t ++ tail)) := stripLit_self_append _ _
  have hdrop2 : List.dropWhile (fun c => c != '\n')
      (rest ++ '\n' :: '\n' :: (t ++ tail)) = '\n' :: '\n' :: (t ++ tail) := by
    rw [dropWhile_append_all _ hrest]
    exact dropWhile_eq_self_of_head (by decide)
  have htake2 : List.takeWhile (fun c => c != '\n') (t ++ tail) = t := by
    rw [takeWhile_append_all _ ht]
    rcases htail with h | ⟨tl, h⟩ <;> subst h
    · simp
    · rw [takeWhile_eq_nil_of_head (by decide), List.append_nil]
  simp only [mergeMatch, List.append_assoc] at *
  rw [h1, Option.some_bind]
  simp only [htake, hdrop, List.isEmpty_iff, if_neg hds]
  rw [h2, Option.some_bind]
  unfold mergeTail
  rw [hdrop2]
  simp [htake2]

/-- Shape of a successful `parenNum`: the input decomposes as the literal,
the nonempty captured digit run, the closing parenthesis, and a remainder. -/
theorem parenNum_eq_some {s n : Str} (h : parenNum s = some n) :
    (∃ rest, s = (" (#").data ++ n ++ ')' :: rest) ∧ n ≠ [] ∧
      ∀ c ∈ n, c.isDigit = true := by
  unfold parenNum at h
  cases hs : stripLit (" (#").data s with
  | none => rw [hs] at h; exact absurd h (by simp)
  | some r =>
    rw [hs, Option.some_bind] at h
    simp only at h
    by_cases he : (List.takeWhile Char.isDigit r).isEmpty
    · rw [if_pos he] at h; exact absurd h (by simp)
    · rw [if_neg he] at h
      cases hd : List.dropWhile Char.isDigit r with
      | nil => rw [hd] at h; exact absurd h (by simp)
      | cons c rest2 =>
        rw [hd] at h
        have h2 : (if c = ')' then some (List.takeWhile Char.isDigit r) else none) = some n := h
        clear h
        by_cases hc : c = ')'
        · rw [if_pos hc] at h2
          subst hc
          simp only [Option.some.injEq] at h2
          subst h2
          refine ⟨⟨rest2, ?_⟩, by simpa [List.isEmpty_iff] using he,
            fun c hc => List.mem_takeWhile_imp hc⟩
          have hsr := stripLit_eq_some hs
          rw [hsr]
          have hr := List.takeWhile_append_dropWhile Char.isDigit r
          rw [hd] at hr
          conv_lhs => rw [← hr]
          simp [List.append_assoc]
        · rw [if_neg hc] at h2
          exact absurd h2 (by simp)

/-- Shape of a successful `squashSplit`: the line decomposes as the captured
title, the literal `" (#"`, the captured nonempty digit run, `')'`, and
discarded trailing text. -/
theorem squashSplit_eq_some {l t n : Str} (h : squashSplit l = some (t, n)) :
    (∃ rest, l = t ++ (" (#").data ++ n ++ ')' :: rest) ∧ n ≠ [] ∧
      ∀ c ∈ n, c.isDigit = true := by
  induction l generalizing t n with
  | nil => simp [squashSplit] at h
  | cons c cs ih =>
    unfold squashSplit at h
    cases hs : squashSplit cs with
    | some p =>
      rcases p with ⟨t2, n2⟩
      rw [hs] at h
      simp only [Option.some.injEq, Prod.mk.injEq] at h
      rcases h with ⟨ht, hn⟩
      subst hn
      rcases ih hs with ⟨⟨rest, hcs⟩, hne, hdig⟩
      refine ⟨⟨rest, ?_⟩, hne, hdig⟩
      rw [← ht, hcs]
      simp
    | none =>
      rw [hs] at h
      cases hp : parenNum (c :: cs) with
      | none => rw [hp] at h; exact absurd h (by simp)
      | some n2 =>
        rw [hp] at h
        simp only [Option.some.injEq, Prod.mk.injEq] at h
        rcases h with ⟨ht, hn⟩
        subst hn
        rcases parenNum_eq_some hp with ⟨⟨rest, hcs⟩, hne, hdig⟩
        exact ⟨⟨rest, by rw [← ht]; simpa using hcs⟩, hne, hdig⟩

/-- `extract_pr` succeeds exactly when `is_pr` holds (`is_pr` uses `.search`,
`extract_pr` uses `.match`, but both patterns are anchored with `^`). -/
theorem extract_pr_isSome_iff (message : Str) :
    (extract_pr message).isSome = is_pr message := by
  unfold extract_pr is_pr
  cases mergeMatch message with
  | some p => rcases p with ⟨n, t⟩; simp
  | none =>
    cases hs : squashMatch message with
    | some p => rcases p with ⟨t, n⟩; simp
    | none => simp

theorem extract_pr_of_mergeMatch {message n t : Str}
    (h : mergeMatch message = some (n, t)) :
    extract_pr message = some (PullRequest.mk n t) := by
  unfold extract_pr
  rw [h]

theorem extract_pr_of_squashMatch {message t n : Str} (hm : mergeMatch message = none)
    (hs : squashMatch message = some (t, n)) :
    extract_pr message = some (PullRequest.mk n t) := by
  unfold extract_pr
  rw [hm, hs]

/-! Claim theorems for the commit classifier. -/

/-- C6: every message of the merge-commit template shape (the literal head,
a number, `" from "` and a branch segment, a blank line, then a title line)
satisfies `is_pr`, and `extract_pr` returns exactly the captured number
(group 1) and title (group 2); moreover the merge pattern is tried before the
squash pattern, so any message on which `MERGE_PR_RE` matches gets the
merge-side captures from `extract_pr`, whether or not `SQUASH_PR_RE` also
matches. -/
theorem merge_template_extraction {message ds rest t tail : Str}
    (hmsg : message = mergeLit ++ ds ++ fromLit ++ rest ++ '\n' :: '\n' :: (t ++ tail))
    (hds : ds ≠ []) (hdig : ∀ c ∈ ds, c.isDigit = true)
    (hrest : ∀ c ∈ rest, (c != '\n') = true)
    (ht : ∀ c ∈ t, (c != '\n') = true)
    (htail : tail = [] ∨ ∃ tl, tail = '\n' :: tl) :
    is_pr message = true ∧ extract_pr message = some (PullRequest.mk ds t) ∧
      ∀ m n2 t2, mergeMatch m = some (n2, t2) →
        extract_pr m = some (PullRequest.mk n2 t2) := by
  have hm : mergeMatch message = some (ds, t) :=
    mergeMatch_template hmsg hds hdig hrest ht htail
  refine ⟨by simp [is_pr, hm], extract_pr_of_mergeMatch hm,
    fun m n2 t2 h => extract_pr_of_mergeMatch h⟩

/-- Witness for C6 on the merge-commit message of the repository's test
suite. -/
theorem merge_template_extraction_witness :
    is_pr ("Merge pull request #1234 from some/branch\n\nMy Title").data = true ∧
      extract_pr ("Merge pull request #1234 from some/branch\n\nMy Title").data =
        some (PullRequest.mk ("1234").data ("My Title").data) ∧
      ∀ m n2 t2, mergeMatch m = some (n2, t2) →
        extract_pr m = some (PullRequest.mk n2 t2) :=
  @merge_template_extraction
    (("Merge pull request #1234 from some/branch\n\nMy Title").data)
    (("1234").data) (("some/branch").data) (("My Title").data) []
    (by decide) (by decide) (by decide) (by decide) (by decide) (Or.inl rfl)

/-- C7 counterexample: a message matching both templates.  `SQUASH_PR_RE`
matches it (captures shown), yet `extract_pr` does not return the squash-side
captures because `MERGE_PR_RE` matched first. -/
theorem squash_template_counterexample :
    squashMatch ("Merge pull request #5 from a (#7)\n\nTitle").data =
      some (("Merge pull request #5 from a").data, ("7").data) ∧
    extract_pr ("Merge pull request #5 from a (#7)\n\nTitle").data =
      some (PullRequest.mk ("5").data ("Title").data) ∧
    extract_pr ("Merge pull request #5 from a (#7)\n\nTitle").data ≠
      some (PullRequest.mk ("7").data ("Merge pull request #5 from a").data) :=
  ⟨by decide, by decide, by decide⟩

/-- C7 (amended to messages on which the merge pattern does not match):
`extract_pr` returns the squash captures, the captured title is exactly what
precedes the final parenthesised number of the first line, and everything
after the closing parenthesis is discarded. -/
theorem squash_template_extraction {message t n : Str}
    (hm : mergeMatch message = none) (hs : squashMatch message = some (t, n)) :
    extract_pr message = some (PullRequest.mk n t) ∧
      (∃ rest, message.takeWhile (fun c => c != '\n') =
        t ++ (" (#").data ++ n ++ ')' :: rest) ∧
      n ≠ [] ∧ ∀ c ∈ n, c.isDigit = true := by
  refine ⟨extract_pr_of_squashMatch hm hs, ?_⟩
  unfold squashMatch at hs
  have h := squashSplit_eq_some hs
  rcases h with ⟨⟨rest, hline⟩, hne, hdig⟩
  exact ⟨⟨rest, by rw [hline]⟩, hne, hdig⟩

/-- Witness for the amended C7 on the squash message of the repository's test
suite: the trailing description after `(#1234)` is discarded. -/
theorem squash_template_extraction_witness :
    extract_pr ("My Title (#1234)\n\nMy description").data =
      some (PullRequest.mk ("1234").data ("My Title").data) ∧
      (∃ rest, (("My Title (#1234)\n\nMy description").data).takeWhile
          (fun c => c != '\n') =
        ("My Title").data ++ (" (#").data ++ ("1234").data ++ ')' :: rest) ∧
      ("1234").data ≠ [] ∧ ∀ c ∈ ("1234").data, c.isDigit = true :=
  squash_template_extraction (by decide) (by decide)

/-- C8: a message on which neither pattern matches fails `is_pr` and makes
`extract_pr` raise (modelled as `none`); in general `extract_pr` succeeds
exactly on the messages accepted by `is_pr`. -/
theorem non_template_rejection :
    (∀ message : Str, mergeMatch message = none → squashMatch message = none →
      is_pr message = false ∧ extract_pr message = none) ∧
    (∀ message : Str, (extract_pr message).isSome = true ↔ is_pr message = true) := by
  constructor
  · intro m hm hs
    constructor
    · simp [is_pr, hm, hs]
    · unfold extract_pr
      rw [hm, hs]
  · intro m
    rw [extract_pr_isSome_iff]

/-- Witness for C8 on the non-merge message of the repository's test suite. -/
theorem non_template_rejection_witness :
    is_pr ("I made some changes!").data = false ∧
      extract_pr ("I made some changes!").data = none :=
  non_template_rejection.1 (("I made some changes!").data) (by decide) (by decide)

/-! Resolver lemmas and claim theorems. -/

/-- Deduplication keeping the first occurrence of each number, the spec-side
description of step 6 of the resolver (`seen` is the set of already-seen
numbers). -/
def firstOccurrences : List PullRequest → List Str → List PullRequest
  | [], _ => []
  | pr :: rest, seen =>
    if pr.number ∈ seen then firstOccurrences rest seen
    else pr :: firstOccurrences rest (pr.number :: seen)

/-- The deduplicated first-occurrence walk paired with its fetched details:
the list `fetch_changes` reverses just before returning. -/
def survivors (lookup : Str → Option PullRequest) (getDetails : Str → PullRequestDetails)
    (ignore_release_merge : Bool) (commits_between : List Commit) :
    List ExtendedPullRequest :=
  (firstOccurrences
    (commits_between.filterMap (resolveCommit lookup ignore_release_merge)) []).map
    (fun pr => ExtendedPullRequest.mk pr (getDetails pr.number))

theorem collectPRs_eq_firstOccurrences (lookup : Str → Option PullRequest) (ig : Bool) :
    ∀ (commits : List Commit) (seen : List Str),
      collectPRs lookup ig commits seen =
        firstOccurrences (commits.filterMap (resolveCommit lookup ig)) seen := by
  intro commits
  induction commits with
  | nil => intro seen; rfl
  | cons c cs ih =>
    intro seen
    cases h : resolveCommit lookup ig c with
    | none => simp [collectPRs, List.filterMap_cons, h, ih]
    | some pr => simp [collectPRs, List.filterMap_cons, h, firstOccurrences, ih]

theorem firstOccurrences_nodup : ∀ (l : List PullRequest) (seen : List Str),
    ((firstOccurrences l seen).map (fun pr => pr.number)).Nodup ∧
      ∀ n ∈ (firstOccurrences l seen).map (fun pr => pr.number), n ∉ seen := by
  intro l
  induction l with
  | nil => intro seen; simp [firstOccurrences]
  | cons pr rest ih =>
    intro seen
    by_cases h : pr.number ∈ seen
    · simp only [firstOccurrences, if_pos h]
      exact ih seen
    · simp only [firstOccurrences, if_neg h, List.map_cons]
      obtain ⟨ihn, ihs⟩ := ih (pr.number :: seen)
      refine ⟨List.nodup_cons.mpr ⟨fun hmem => ?_, ihn⟩, ?_⟩
      · exact (ihs _ hmem) (by simp)
      · intro n hn
        rcases List.mem_cons.mp hn with h1 | h1
        · subst h1; exact h
        · intro hcon
          exact (ihs n h1) (by simp [hcon])

/-- A successful `fetch_changes` returns exactly the reversal of the
deduplicated, detail-extended walk. -/
theorem fetch_changes_ok {lookup : Str → Option PullRequest}
    {getDetails : Str → PullRequestDetails} {ig : Bool}
    {commits : List Commit} {es : List ExtendedPullRequest}
    (h : fetch_changes lookup getDetails ig commits = Except.ok es) :
    es = (survivors lookup getDetails ig commits).reverse := by
  simp only [fetch_changes] at h
  split at h
  · exact absurd h (by simp)
  · simp only [Except.ok.injEq] at h
    rw [← h]
    unfold survivors
    rw [collectPRs_eq_firstOccurrences]

/-- C1: in the list returned by `fetch_changes` each pull-request number
appears at most once, and the returned pull requests are exactly the
first-occurrence deduplication of the resolved walk (so later duplicates
contribute nothing). -/
theorem resolver_dedup {lookup : Str → Option PullRequest}
    {getDetails : Str → PullRequestDetails} {ig : Bool}
    {commits : List Commit} {es : List ExtendedPullRequest}
    (h : fetch_changes lookup getDetails ig commits = Except.ok es) :
    (es.map (fun e => e.pr.number)).Nodup ∧
      es.map (fun e => e.pr) =
        (firstOccurrences (commits.filterMap (resolveCommit lookup ig)) []).reverse := by
  have hes := fetch_changes_ok h
  subst hes
  constructor
  · rw [List.map_reverse, List.nodup_reverse]
    unfold survivors
    rw [List.map_map]
    exact (firstOccurrences_nodup _ _).1
  · rw [List.map_reverse]
    unfold survivors
    rw [List.map_map]
    exact congrArg List.reverse (List.map_id _)

/-- Fallback-lookup oracle of the repository's rebase-merge test: two commits
resolve to pull request 100 and one to pull request 101. -/
def dedupLookup : Str → Option PullRequest := fun sha =>
  if sha = ("commit1").data ∨ sha = ("commit2").data then
    some (PullRequest.mk ("100").data ("Fix authentication bug").data)
  else if sha = ("commit3").data then
    some (PullRequest.mk ("101").data ("Documentation updates").data)
  else none

/-- A details oracle answering every number with an empty-labelled detail. -/
def emptyDetails : Str → PullRequestDetails := fun _ => PullRequestDetails.mk none (some [])

/-- The commit walk of the repository's rebase-merge test. -/
def dedupCommits : List Commit :=
  [Commit.mk ("commit1").data ("Fix bug in authentication").data,
   Commit.mk ("commit2").data ("Add unit tests").data,
   Commit.mk ("commit3").data ("Update documentation").data]

/-- Witness for C1 on the rebase-merge walk: pull request 100 is resolved from
two commits but kept once, at its first occurrence. -/
theorem resolver_dedup_witness :
    (([ExtendedPullRequest.mk
        (PullRequest.mk ("101").data ("Documentation updates").data)
        (PullRequestDetails.mk none (some [])),
      ExtendedPullRequest.mk
        (PullRequest.mk ("100").data ("Fix authentication bug").data)
        (PullRequestDetails.mk none (some []))]).map
        (fun e => e.pr.number)).Nodup ∧
      ([ExtendedPullRequest.mk
          (PullRequest.mk ("101").data ("Documentation updates").data)
          (PullRequestDetails.mk none (some [])),
        ExtendedPullRequest.mk
          (PullRequest.mk ("100").data ("Fix authentication bug").data)
          (PullRequestDetails.mk none (some []))]).map (fun e => e.pr) =
        (firstOccurrences
          (dedupCommits.filterMap (resolveCommit dedupLookup false)) []).reverse :=
  @resolver_dedup dedupLookup emptyDetails false dedupCommits _ (by rfl)

/-- C3: a successful `fetch_changes` result is exactly the reversal of the
deduplicated, detail-extended walk (the reversal is applied once, after
deduplication and detail-fetching), so entry `i` of the result is the
`(n-1-i)`-th surviving entry. -/
theorem resolver_reversal {lookup : Str → Option PullRequest}
    {getDetails : Str → PullRequestDetails} {ig : Bool}
    {commits : List Commit} {es : List ExtendedPullRequest}
    (h : fetch_changes lookup getDetails ig commits = Except.ok es) :
    es = (survivors lookup getDetails ig commits).reverse ∧
      es.length = (survivors lookup getDetails ig commits).length ∧
      ∀ i, i < es.length →
        es[i]? = (survivors lookup getDetails ig commits)[
          (survivors lookup getDetails ig commits).length - 1 - i]? := by
  have hes := fetch_changes_ok h
  subst hes
  refine ⟨rfl, by simp, ?_⟩
  intro i hi
  exact List.getElem?_reverse (by simpa using hi)

/-- Witness for C3 on the rebase-merge walk: the two surviving entries come
back in reversed order. -/
theorem resolver_reversal_witness :
    ([ExtendedPullRequest.mk
        (PullRequest.mk ("101").data ("Documentation updates").data)
        (PullRequestDetails.mk none (some [])),
      ExtendedPullRequest.mk
        (PullRequest.mk ("100").data ("Fix authentication bug").data)
        (PullRequestDetails.mk none (some []))] =
      (survivors dedupLookup emptyDetails false dedupCommits).reverse) ∧
      ([ExtendedPullRequest.mk
          (PullRequest.mk ("101").data ("Documentation updates").data)
          (PullRequestDetails.mk none (some [])),
        ExtendedPullRequest.mk
          (PullRequest.mk ("100").data ("Fix authentication bug").data)
          (PullRequestDetails.mk none (some []))].length =
        (survivors dedupLookup emptyDetails false dedupCommits).length) ∧
      ∀ i, i < ([ExtendedPullRequest.mk
          (PullRequest.mk ("101").data ("Documentation updates").data)
          (PullRequestDetails.mk none (some [])),
        ExtendedPullRequest.mk
          (PullRequest.mk ("100").data ("Fix authentication bug").data)
          (PullRequestDetails.mk none (some []))].length) →
        [ExtendedPullRequest.mk
          (PullRequest.mk ("101").data ("Documentation updates").data)
          (PullRequestDetails.mk none (some [])),
        ExtendedPullRequest.mk
          (PullRequest.mk ("100").data ("Fix authentication bug").data)
          (PullRequestDetails.mk none (some []))][i]? =
          (survivors dedupLookup emptyDetails false dedupCommits)[
            (survivors dedupLookup emptyDetails false dedupCommits).length - 1 - i]? :=
  @resolver_reversal dedupLookup emptyDetails false dedupCommits _ (by rfl)

/-- C5: a non-empty walk in which no message matches either template and
every fallback lookup returns `none` makes `fetch_changes` fail with the
consistency error; conversely an empty list is returned without error only
for an empty walk. -/
theorem consistency_check {lookup : Str → Option PullRequest}
    {getDetails : Str → PullRequestDetails} {ig : Bool} {commits : List Commit} :
    (commits ≠ [] →
      (∀ c ∈ commits, is_pr c.message = false ∧ lookup c.sha = none) →
      fetch_changes lookup getDetails ig commits = Except.error FetchError.consistency) ∧
    (fetch_changes lookup getDetails ig commits = Except.ok [] → commits = []) := by
  constructor
  · intro hne hall
    have hres : ∀ c ∈ commits, resolveCommit lookup ig c = none := by
      intro c hc
      obtain ⟨h1, h2⟩ := hall c hc
      simp [resolveCommit, h1, h2]
    have hcol : collectPRs lookup ig commits [] = [] := by
      rw [collectPRs_eq_firstOccurrences]
      have : commits.filterMap (resolveCommit lookup ig) = [] :=
        List.filterMap_eq_nil_iff.mpr hres
      rw [this]
      rfl
    have hpos : commits.length > 0 := List.length_pos.mpr hne
    simp [fetch_changes, hcol, hpos]
  · intro h
    simp only [fetch_changes] at h
    split at h
    · exact absurd h (by simp)
    · rename_i hcond
      simp only [Except.ok.injEq, List.reverse_eq_nil_iff, List.map_eq_nil_iff] at h
      rw [h] at hcond
      simp only [List.map_nil, List.length_nil, gt_iff_lt, true_and, not_lt,
        Nat.le_zero] at hcond
      exact List.length_eq_zero.mp hcond

/-- Witness for C5: one unclassifiable commit and an always-failing fallback
give the consistency error. -/
theorem consistency_check_witness :
    fetch_changes (fun _ => none) emptyDetails false
      [Commit.mk ("sha1").data ("hello world").data] =
      Except.error FetchError.consistency :=
  (@consistency_check (fun _ => none) emptyDetails false
    [Commit.mk ("sha1").data ("hello world").data]).1
    (by decide) (by decide)

/-- C9 counterexample: the code accepts only status 200, not every 2xx
status.  A response with status 201 and a non-empty result refutes the claim
as stated: the claim's "otherwise returns the first change-request" clause
would apply, but the function returns `none`. -/
theorem best_effort_lookup_counterexample :
    ¬ (∀ response : PRForCommitResponse,
      ((¬ (200 ≤ response.status_code ∧ response.status_code < 300)) ∨
          response.pulls = [] → get_pr_for_commit response = none) ∧
      ((200 ≤ response.status_code ∧ response.status_code < 300) →
        response.pulls ≠ [] →
        get_pr_for_commit response = (response.pulls.head?).map
          (fun p => PullRequest.mk (Nat.repr p.number).data p.title))) := by
  intro h
  have h2 := (h (PRForCommitResponse.mk 201 [RawPull.mk 123 (("T").data)])).2
    (by decide) (by decide)
  exact absurd h2 (by decide)

/-- C9 (amended to "any status other than 200"): `get_pr_for_commit` never
raises; it returns `none` on any non-200 status and on an empty result list,
returns the first result (with the number stringified) otherwise, and a
`none` outcome of the fallback lookup is not an error in the resolver: the
walk simply continues with the remaining commits. -/
theorem best_effort_lookup :
    (∀ response : PRForCommitResponse, response.status_code ≠ 200 →
      get_pr_for_commit response = none) ∧
    (∀ response : PRForCommitResponse, response.pulls = [] →
      get_pr_for_commit response = none) ∧
    (∀ (p : RawPull) (rest : List RawPull),
      get_pr_for_commit (PRForCommitResponse.mk 200 (p :: rest)) =
        some (PullRequest.mk (Nat.repr p.number).data p.title)) ∧
    (∀ (lookup : Str → Option PullRequest) (ig : Bool) (c : Commit)
        (cs : List Commit) (seen : List Str),
      is_pr c.message = false → lookup c.sha = none →
      collectPRs lookup ig (c :: cs) seen = collectPRs lookup ig cs seen) := by
  refine ⟨?_, ?_, ?_, ?_⟩
  · intro response h
    simp [get_pr_for_commit, h]
  · intro response h
    unfold get_pr_for_commit
    rw [h]
    split <;> rfl
  · intro p rest
    simp [get_pr_for_commit]
  · intro lookup ig c cs seen h1 h2
    simp [collectPRs, resolveCommit, h1, h2]

/-- Witness for the amended C9, on the successful-lookup response of the
repository's test suite. -/
theorem best_effort_lookup_witness :
    get_pr_for_commit (PRForCommitResponse.mk 200
        [RawPull.mk 123 (("Add new feature").data)]) =
      some (PullRequest.mk (Nat.repr 123).data (("Add new feature").data)) :=
  best_effort_lookup.2.2.1 (RawPull.mk 123 (("Add new feature").data)) []

/-- C10: with an empty commit walk `fetch_changes` returns the empty list
without error (the consistency check does not fire), and `format_changes` on
an empty entry list renders exactly the single header line "PATCH RELEASE". -/
theorem empty_walk_defaults :
    (∀ (lookup : Str → Option PullRequest) (getDetails : Str → PullRequestDetails)
        (ig : Bool),
      fetch_changes lookup getDetails ig [] = Except.ok []) ∧
    (∀ (github_config : GitHubConfig) (owner repo : Str) (markdown : Bool),
      format_changes github_config owner repo [] markdown =
        [("PATCH RELEASE").data]) := by
  constructor
  · intro lookup getDetails ig
    simp [fetch_changes, collectPRs]
  · intro github_config owner repo markdown
    simp [format_changes, CHANGELOG_LEVEL_MESSAGE]

/-! Severity aggregation: spec-side definitions and lemmas. -/

/-- The label list of an entry as `format_changes` reads it
(`extended_pr.details.labels or []`). -/
def labelsOf (e : ExtendedPullRequest) : List Str :=
  e.details.labels.getD []

/-- Spec-side severity of one entry: 2 for an empty (or absent) label set,
else the minimum `labelLevel` over its labels. -/
def entryMin (e : ExtendedPullRequest) : Nat :=
  match (labelsOf e).map labelLevel with
  | [] => 2
  | x :: xs => xs.foldl min x

/-- Spec-side aggregate severity: the minimum of the per-entry severities,
starting from PATCH (3). -/
def aggLevel (prs : List ExtendedPullRequest) : Nat :=
  prs.foldl (fun lvl e => min lvl (entryMin e)) 3

theorem foldl_min_min (xs : List Nat) :
    ∀ a b : Nat, xs.foldl min (min a b) = min a (xs.foldl min b) := by
  induction xs with
  | nil => intro a b; rfl
  | cons x xs ih =>
    intro a b
    simp only [List.foldl_cons]
    rw [min_assoc, ih]

/-- The threaded `change_level` update of `format_changes` computes the
minimum of the incoming level and the entry's spec-side severity. -/
theorem change_level_update_eq (e : ExtendedPullRequest) (lvl : Nat) :
    change_level_update e lvl = min lvl (entryMin e) := by
  unfold change_level_update entryMin labelsOf
  cases h : e.details.labels.getD [] with
  | nil => simp
  | cons x xs =>
    simp only [List.length_cons, List.map_cons]
    rw [if_neg (by omega)]
    rw [← List.foldl_map labelLevel min]
    simp only [List.map_cons, List.foldl_cons]
    rw [foldl_min_min]

theorem formatStep_fst (github_config : GitHubConfig) (owner repo : Str)
    (markdown : Bool) :
    ∀ (prs : List ExtendedPullRequest) (lvl : Nat) (lines : List Str),
      (prs.foldl (formatStep github_config owner repo markdown) (lvl, lines)).1 =
        prs.foldl (fun l e => min l (entryMin e)) lvl := by
  intro prs
  induction prs with
  | nil => intro lvl lines; rfl
  | cons e es ih =>
    intro lvl lines
    simp only [List.foldl_cons, formatStep]
    rw [ih, change_level_update_eq]

/-- The header line of `format_changes` names the spec-side aggregate
severity. -/
theorem format_changes_head (github_config : GitHubConfig) (owner repo : Str)
    (prs : List ExtendedPullRequest) (markdown : Bool) :
    (format_changes github_config owner repo prs markdown).head? =
      some (CHANGELOG_LEVEL_MESSAGE (aggLevel prs)) := by
  simp only [format_changes, List.head?_cons, Option.some.injEq]
  rw [formatStep_fst]
  rfl

theorem labelLevel_cases (l : Str) :
    labelLevel l = 1 ∨ labelLevel l = 2 ∨ labelLevel l = 3 := by
  unfold labelLevel LABEL_LEVELS
  split_ifs <;> simp

theorem one_le_labelLevel (l : Str) : 1 ≤ labelLevel l := by
  rcases labelLevel_cases l with h | h | h <;> omega

theorem foldl_min_le_init (xs : List Nat) : ∀ a : Nat, xs.foldl min a ≤ a := by
  induction xs with
  | nil => intro a; exact le_refl a
  | cons x xs ih =>
    intro a
    simp only [List.foldl_cons]
    exact le_trans (ih (min a x)) (min_le_left a x)

theorem foldl_min_le_mem (xs : List Nat) :
    ∀ a v : Nat, (v = a ∨ v ∈ xs) → xs.foldl min a ≤ v := by
  induction xs with
  | nil =>
    intro a v h
    rcases h with h | h
    · subst h; exact le_refl v
    · simp at h
  | cons x xs ih =>
    intro a v h
    simp only [List.foldl_cons]
    rcases h with h | h
    · subst h
      exact le_trans (foldl_min_le_init xs (min v x)) (min_le_left v x)
    · rcases List.mem_cons.mp h with h2 | h2
      · subst h2
        exact le_trans (foldl_min_le_init xs (min a v)) (min_le_right a v)
      · exact ih (min a x) v (Or.inr h2)

theorem one_le_foldl_min (xs : List Nat) :
    ∀ a : Nat, 1 ≤ a → (∀ v ∈ xs, 1 ≤ v) → 1 ≤ xs.foldl min a := by
  induction xs with
  | nil => intro a ha _; exact ha
  | cons x xs ih =>
    intro a ha hall
    simp only [List.foldl_cons]
    exact ih (min a x) (le_min ha (hall x (by simp)))
      (fun v hv => hall v (by simp [hv]))

theorem one_le_entryMin (e : ExtendedPullRequest) : 1 ≤ entryMin e := by
  unfold entryMin
  cases h : (labelsOf e).map labelLevel with
  | nil => decide
  | cons x xs =>
    have hx : x ∈ (labelsOf e).map labelLevel := by rw [h]; simp
    rcases List.mem_map.mp hx with ⟨l, _, hl⟩
    refine one_le_foldl_min xs x (hl ▸ one_le_labelLevel l) ?_
    intro v hv
    have : v ∈ (labelsOf e).map labelLevel := by rw [h]; simp [hv]
    rcases List.mem_map.mp this with ⟨l2, _, hl2⟩
    exact hl2 ▸ one_le_labelLevel l2

theorem entryMin_le_one_of_breaking {e : ExtendedPullRequest}
    (h : ("breaking").data ∈ labelsOf e) : entryMin e ≤ 1 := by
  have h1 : (1 : Nat) ∈ (labelsOf e).map labelLevel :=
    List.mem_map.mpr ⟨("breaking").data, h, by decide⟩
  unfold entryMin
  cases hm : (labelsOf e).map labelLevel with
  | nil => rw [hm] at h1; simp at h1
  | cons x xs =>
    rw [hm] at h1
    exact foldl_min_le_mem xs x 1
      (by rcases List.mem_cons.mp h1 with h2 | h2
          · exact Or.inl h2
          · exact Or.inr h2)

theorem one_le_aggLevel_aux (prs : List ExtendedPullRequest) :
    ∀ lvl : Nat, 1 ≤ lvl →
      1 ≤ prs.foldl (fun l e => min l (entryMin e)) lvl := by
  induction prs with
  | nil => intro lvl h; exact h
  | cons e es ih =>
    intro lvl h
    simp only [List.foldl_cons]
    exact ih (min lvl (entryMin e)) (le_min h (one_le_entryMin e))

theorem aggLevel_fold_le_init (prs : List ExtendedPullRequest) :
    ∀ lvl : Nat, prs.foldl (fun l e => min l (entryMin e)) lvl ≤ lvl := by
  induction prs with
  | nil => intro lvl; exact le_refl lvl
  | cons e es ih =>
    intro lvl
    simp only [List.foldl_cons]
    exact le_trans (ih (min lvl (entryMin e))) (min_le_left _ _)

theorem aggLevel_le_entryMin {prs : List ExtendedPullRequest}
    {e : ExtendedPullRequest} (h : e ∈ prs) :
    ∀ lvl : Nat, prs.foldl (fun l e => min l (entryMin e)) lvl ≤ entryMin e := by
  induction prs with
  | nil => simp at h
  | cons a es ih =>
    intro lvl
    simp only [List.foldl_cons]
    rcases List.mem_cons.mp h with h2 | h2
    · subst h2
      exact le_trans (aggLevel_fold_le_init es (min lvl (entryMin e)))
        (min_le_right _ _)
    · exact ih h2 (min lvl (entryMin a))

/-- C2: the header of `format_changes` names the aggregate severity, which is
the minimum level over all entries and labels starting from PATCH (3); an
entry with an empty or absent label set contributes severity 2; labels map
through the case-sensitive table patch/hotfix/fix to 3, minor/feature to 2,
breaking/major to 1, with unrecognized labels contributing 2; and a single
"breaking" label anywhere forces the header line "MAJOR RELEASE". -/
theorem severity_aggregation :
    (∀ (github_config : GitHubConfig) (owner repo : Str)
        (prs : List ExtendedPullRequest) (markdown : Bool),
      (format_changes github_config owner repo prs markdown).head? =
        some (CHANGELOG_LEVEL_MESSAGE (aggLevel prs))) ∧
    (labelLevel (("patch").data) = 3 ∧ labelLevel (("hotfix").data) = 3 ∧
      labelLevel (("fix").data) = 3 ∧ labelLevel (("minor").data) = 2 ∧
      labelLevel (("feature").data) = 2 ∧ labelLevel (("breaking").data) = 1 ∧
      labelLevel (("major").data) = 1) ∧
    (∀ l : Str, LABEL_LEVELS l = none → labelLevel l = 2) ∧
    (∀ e : ExtendedPullRequest, labelsOf e = [] → entryMin e = 2) ∧
    (∀ (github_config : GitHubConfig) (owner repo : Str)
        (prs : List ExtendedPullRequest) (markdown : Bool)
        (e : ExtendedPullRequest), e ∈ prs → ("breaking").data ∈ labelsOf e →
      (format_changes github_config owner repo prs markdown).head? =
        some (("MAJOR RELEASE").data)) := by
  refine ⟨format_changes_head, by decide, ?_, ?_, ?_⟩
  · intro l h
    unfold labelLevel
    rw [h]
    rfl
  · intro e h
    unfold entryMin
    rw [h]
    rfl
  · intro github_config owner repo prs markdown e hmem hbr
    have h1 : aggLevel prs ≤ 1 :=
      le_trans (aggLevel_le_entryMin hmem 3) (entryMin_le_one_of_breaking hbr)
    have h2 : 1 ≤ aggLevel prs := one_le_aggLevel_aux prs 3 (by omega)
    have hagg : aggLevel prs = 1 := le_antisymm h1 h2
    rw [format_changes_head, hagg]
    rfl

/-- Witness for C2: a single entry labelled "breaking" yields the
"MAJOR RELEASE" header. -/
theorem severity_aggregation_witness :
    (format_changes (GitHubConfig.mk []) [] []
      [ExtendedPullRequest.mk (PullRequest.mk (("1").data) (("first").data))
        (PullRequestDetails.mk none (some [("breaking").data]))] false).head? =
      some (("MAJOR RELEASE").data) :=
  severity_aggregation.2.2.2.2 (GitHubConfig.mk []) [] []
    [ExtendedPullRequest.mk (PullRequest.mk (("1").data) (("first").data))
      (PullRequestDetails.mk none (some [("breaking").data]))] false
    (ExtendedPullRequest.mk (PullRequest.mk (("1").data) (("first").data))
      (PullRequestDetails.mk none (some [("breaking").data])))
    (by simp) (by decide)

/-! The round-trip scenario of C4. -/

/-- The merge commit for change-request 5 of the scenario. -/
def mergeCommit5 : Commit :=
  Commit.mk (("c5").data) (("Merge pull request #5 from some/branch\n\nMy Title").data)

/-- The squash commit for change-request 6 of the scenario. -/
def squashCommit6 : Commit :=
  Commit.mk (("c6").data) (("Some title addresses bug (#6)").data)

/-- The squash commit for change-request 9 of the scenario. -/
def squashCommit9 : Commit :=
  Commit.mk (("c9").data) (("My Title (#9)\n\nMy description").data)

/-- The rebase commit of the scenario: its message matches no template, the
fallback lookup resolves it. -/
def rebaseCommit10 : Commit :=
  Commit.mk (("c10").data) (("I made some changes!").data)

/-- Fallback oracle of the scenario: only the rebase commit resolves, to
change-request 10. -/
def scenarioLookup : Str → Option PullRequest := fun sha =>
  if sha = ("c10").data then
    some (PullRequest.mk (("10").data) (("My Title").data))
  else none

/-- Details oracle of the scenario: no labels anywhere; change-request 10's
body carries a `CHANGELOG:` override. -/
def scenarioDetails : Str → PullRequestDetails := fun number =>
  if number = ("10").data then
    PullRequestDetails.mk
      (some (("My Title #10\n\nCHANGELOG: Specific Changelog").data)) (some [])
  else PullRequestDetails.mk (some (("PR body content").data)) (some [])

/-- Configuration of the scenario (only the base URL is read, and only under
markdown rendering). -/
def scenarioConfig : GitHubConfig := GitHubConfig.mk (("https://github.com").data)

/-- C4 counterexample: with the walk in the order the claim lists the commits
(#5, #6, #9, then the rebase commit of #10), the rendered output has the
entry lines in the opposite of the claimed order: the reversal puts #10
first and #5 last. -/
theorem round_trip_counterexample :
    generate_changelog scenarioConfig (("someone").data) (("one-repo").data)
      scenarioLookup scenarioDetails false false false
      [mergeCommit5, squashCommit6, squashCommit9, rebaseCommit10] =
      Except.ok (("MINOR RELEASE\n- Specific Changelog #10\n- My Title #9\n- Some title addresses bug #6\n- My Title #5").data) ∧
    (("MINOR RELEASE\n- Specific Changelog #10\n- My Title #9\n- Some title addresses bug #6\n- My Title #5").data : Str) ≠
      (("MINOR RELEASE\n- My Title #5\n- Some title addresses bug #6\n- My Title #9\n- Specific Changelog #10").data : Str) :=
  ⟨by rfl, by decide⟩

/-- C4 (amended: the walk order is newest-first, #10's rebase commit first
and #5's merge commit last, as in the repository's round-trip test): the
rendered output is the header "MINOR RELEASE" followed by the four entry
lines in the order #5, #6, #9, then the overridden "Specific Changelog #10"
— the reversal of the walk order. -/
theorem round_trip_scenario :
    generate_changelog scenarioConfig (("someone").data) (("one-repo").data)
      scenarioLookup scenarioDetails false false false
      [rebaseCommit10, squashCommit9, squashCommit6, mergeCommit5] =
      Except.ok (("MINOR RELEASE\n- My Title #5\n- Some title addresses bug #6\n- My Title #9\n- Specific Changelog #10").data) := by
  rfl

end Changelog
